import Mathlib

/-!
Verification development for the palestine-awareness data layer.

Shallow embedding of the repository's CSV-to-record transformation and
aggregation code:
  - the generic CSV parser with coordinate validation
    (`parseCSVWithCoordinates`, `validateCoordinates`) and the three
    dataset loaders (`loadCasualtiesData`, `loadInfrastructureData`,
    `loadDisplacementData`);
  - the aggregation helpers (`getUniqueLocations`, `calculateBounds`);
  - the displacement-events GET endpoint
    (src/routes/api/events/+server.ts).

Modelling conventions:
  - JavaScript numbers are modelled as exact rationals (ℚ); IEEE-754
    rounding is not modelled.  `Math.max` / `Math.min` applied to a spread
    list are modelled on `WithBot (WithTop ℚ)` so that the JavaScript
    results `-Infinity` (empty `Math.max`) and `Infinity` (empty
    `Math.min`) are representable.
  - `parseFloat` is modelled as a finite-prefix parser returning
    `Option ℚ` (`none` plays the role of `NaN`).  The JavaScript literal
    "Infinity", which `parseFloat` maps to an infinite value, is outside
    the rational model and is treated as unparseable.
  - The csv-parse library (options `columns: true`,
    `skip_empty_lines: true`, a `cast` callback) is modelled for
    unquoted comma-separated input: lines are split on newlines, empty
    lines are skipped, the first remaining line provides the column
    names, and each further line must have exactly as many cells as the
    header (csv-parse raises an "Invalid Record Length" error
    otherwise).  Quoted cells are not used by this repository's data
    files and are not modelled.
  - `console.warn` / `console.error` side effects are modelled as data
    returned next to the parse result (the list of records warned
    about); file-system reads are modelled by passing the file content
    as `Option String` (`none` = the read threw).
  - In the events endpoint the in-place `sort` used to pick
    `most_recent_event`, and the `date_range` computation, involve the
    JavaScript `Date` parser and affect only record order and those two
    response fields; no claim depends on them and they are not
    modelled.  All statements about the response are order-insensitive.
-/

/-! ## JavaScript string and number primitives -/

/-- Whitespace as recognised by JavaScript `trim` / `parseFloat`. -/
def jsWhitespace (c : Char) : Bool :=
  c = ' ' || c = '\t' || c = '\n' || c = '\r' || c = '\x0b' || c = '\x0c'

/-- JavaScript `String.prototype.trim`. -/
def jsTrim (s : String) : String :=
  String.mk (((s.data.dropWhile jsWhitespace).reverse.dropWhile jsWhitespace).reverse)

/-- Numeric value of a list of decimal digit characters. -/
def natOfDigits (ds : List Char) : Nat :=
  ds.foldl (fun a c => 10 * a + (c.toNat - '0'.toNat)) 0

/-!
Kernel-computable rational arithmetic.  The Batteries definitions of
`Rat.add`, `Rat.mul` and `Rat.inv` are `@[irreducible]`, so closed
terms built from them cannot be evaluated by `decide` / `rfl`.  The
wrappers below are plain definitions through `mkRat` and are proved
equal to the Mathlib operations (`qAdd_eq`, `qMul_eq`, `qDiv_eq`,
`qPow10Z_eq` below), so the model is both executable on concrete input
and amenable to the usual algebra lemmas.
-/

/-- Kernel-computable addition on ℚ. -/
def qAdd (a b : ℚ) : ℚ := mkRat (a.num * b.den + b.num * a.den) (a.den * b.den)

/-- Kernel-computable multiplication on ℚ. -/
def qMul (a b : ℚ) : ℚ := mkRat (a.num * b.num) (a.den * b.den)

/-- Kernel-computable division on ℚ. -/
def qDiv (a b : ℚ) : ℚ := qMul a (Rat.divInt (b.den : Int) b.num)

/-- Kernel-computable `(10 : ℚ) ^ (e : ℤ)`. -/
def qPow10Z : Int → ℚ
  | Int.ofNat n => ((10 ^ n : Nat) : ℚ)
  | Int.negSucc n => qDiv 1 ((10 ^ (n + 1) : Nat) : ℚ)

/-- JavaScript `parseFloat`, restricted to finite results: skip leading
whitespace, optional sign, decimal digits with an optional fractional
part and an optional exponent; `none` models `NaN` (and, as a modelling
restriction, the literal "Infinity"). -/
def jsParseFloat (s : String) : Option ℚ :=
  let cs0 := s.data.dropWhile jsWhitespace
  let sign : ℚ := match cs0 with
    | '-' :: _ => -1
    | _ => 1
  let cs := match cs0 with
    | '-' :: t => t
    | '+' :: t => t
    | _ => cs0
  let intDs := cs.takeWhile Char.isDigit
  let cs1 := cs.dropWhile Char.isDigit
  let fracDs := match cs1 with
    | '.' :: t => t.takeWhile Char.isDigit
    | _ => []
  let cs2 := match cs1 with
    | '.' :: t => t.dropWhile Char.isDigit
    | _ => cs1
  if intDs.isEmpty && fracDs.isEmpty then none
  else
    let mantissa : ℚ :=
      qAdd (natOfDigits intDs : ℚ)
        (qDiv (natOfDigits fracDs : ℚ) ((10 ^ fracDs.length : Nat) : ℚ))
    let expo : ℤ := match cs2 with
      | e :: rest =>
        if e = 'e' || e = 'E' then
          let esign : ℤ := match rest with
            | '-' :: _ => -1
            | _ => 1
          let rest2 := match rest with
            | '-' :: t => t
            | '+' :: t => t
            | _ => rest
          let eDs := rest2.takeWhile Char.isDigit
          if eDs.isEmpty then 0 else esign * (natOfDigits eDs : ℤ)
        else 0
      | [] => 0
    some (qMul (qMul sign mantissa) (qPow10Z expo))

/-- `needle.isPrefixOf hay` written out on character lists. -/
def listStarts : List Char → List Char → Bool
  | [], _ => true
  | _ :: _, [] => false
  | a :: as, b :: bs => a == b && listStarts as bs

/-- JavaScript `String.prototype.includes` on character lists. -/
def containsSub (needle : List Char) : List Char → Bool
  | [] => needle.isEmpty
  | c :: t => listStarts needle (c :: t) || containsSub needle t

/-- JavaScript `String.prototype.toLowerCase` (ASCII-adequate). -/
def lowerOf (s : String) : List Char :=
  s.data.map Char.toLower

/-- Split a character list on a separator character (the JavaScript
`split` semantics for a one-character separator: splitting the empty
string yields one empty piece). -/
def splitCharAux (sep : Char) : List Char → List Char → List String
  | [], acc => [String.mk acc.reverse]
  | c :: rest, acc =>
    if c = sep then String.mk acc.reverse :: splitCharAux sep rest []
    else splitCharAux sep rest (c :: acc)

/-- JavaScript `String.prototype.split` with a one-character separator. -/
def jsSplit (sep : Char) (s : String) : List String :=
  splitCharAux sep s.data []

/-- `content.split('\n')`. -/
def jsLines (content : String) : List String :=
  jsSplit '\n' content

/-- Split a CSV line into cells (unquoted model of csv-parse's field
splitting). -/
def splitComma (line : String) : List String :=
  jsSplit ',' line

/-! ## Parsed fields and records -/

/-- A cell value after the `cast` callback: either a string or a number. -/
inductive Cell where
  | str (s : String)
  | num (q : ℚ)
  deriving DecidableEq

/-- A parsed record, as produced by csv-parse with `columns: true`:
column names paired with cast cell values, in column order. -/
abbrev Record := List (String × Cell)

/-- csv-parse's record-length error (raised when a data row does not
have exactly as many cells as the header, `relax_column_count` off). -/
def recLenMsg : String := "Invalid Record Length"

/-- Cast every cell of one data row against the header, with a
per-parser cast callback; a row whose cell count differs from the
header's fails with the record-length error. -/
def cellsWith (cast : String → String → Except String Cell) :
    List String → List String → Except String Record
  | [], [] => Except.ok []
  | c :: cs, v :: vs =>
    match cast c v with
    | Except.error e => Except.error e
    | Except.ok f =>
      match cellsWith cast cs vs with
      | Except.error e => Except.error e
      | Except.ok rest => Except.ok ((c, f) :: rest)
  | [], _ :: _ => Except.error recLenMsg
  | _ :: _, [] => Except.error recLenMsg

/-- Cast all data rows; the first failing row aborts the parse. -/
def rowsWith (cast : String → String → Except String Cell)
    (header : List String) : List (List String) → Except String (List Record)
  | [] => Except.ok []
  | row :: rest =>
    match cellsWith cast header row with
    | Except.error e => Except.error e
    | Except.ok r =>
      match rowsWith cast header rest with
      | Except.error e => Except.error e
      | Except.ok rs => Except.ok (r :: rs)

/-- The non-empty lines of the input (`skip_empty_lines: true`). -/
def linesNE (lines : List String) : List String :=
  lines.filter (fun l => l ≠ "")

/-- The column names: the first non-empty line, split on commas
(`columns: true`). -/
def headerCellsOf (lines : List String) : List String :=
  match linesNE lines with
  | [] => []
  | h :: _ => splitComma h

/-- The data rows: every non-empty line after the header, split on
commas. -/
def rowCellsOf (lines : List String) : List (List String) :=
  (linesNE lines).tail.map splitComma

/-- The csv-parse call (`columns: true`, `skip_empty_lines: true`, a
cast callback), on the input's lines. -/
def parseWith (cast : String → String → Except String Cell)
    (lines : List String) : Except String (List Record) :=
  match linesNE lines with
  | [] => Except.ok []
  | h :: rest => rowsWith cast (splitComma h) (rest.map splitComma)

/-! ## The generic parser (src/unnamed/part_000) -/

/-- Whether a column is cast numerically by `parseCSVWithCoordinates`:
`numericColumns.includes(column) || coordinateColumns.includes(column)`. -/
def memNum (nums coords : List String) (c : String) : Bool :=
  nums.contains c || coords.contains c

/-- The error thrown by the generic parser's cast callback:
`Invalid numeric value "<value>" in column "<column>"`. -/
def numericErrMsg (v c : String) : String :=
  "Invalid numeric value \"" ++ v ++ "\" in column \"" ++ c ++ "\""

/-- The generic parser's cast callback: numeric and coordinate columns
are `parseFloat`ed and throw on `NaN`; every other cell is trimmed. -/
def castCell (nums coords : List String) (c v : String) : Except String Cell :=
  if memNum nums coords c then
    match jsParseFloat v with
    | none => Except.error (numericErrMsg v c)
    | some q => Except.ok (Cell.num q)
  else Except.ok (Cell.str (jsTrim v))

/-- The value a cell gets when the generic parser's cast succeeds:
the parsed float in numeric/coordinate columns, the trimmed string
elsewhere. -/
def castOkVal (nums coords : List String) (c v : String) : Cell :=
  if memNum nums coords c
  then Cell.num ((jsParseFloat v).getD 0)
  else Cell.str (jsTrim v)

/-- The csv-parse stage of the generic parser on raw CSV text. -/
def csvParse (content : String) (nums coords : List String) :
    Except String (List Record) :=
  parseWith (castCell nums coords) (jsLines content)

/-- Header cells of raw CSV text, for stating parser properties. -/
def csvHeader (content : String) : List String :=
  headerCellsOf (jsLines content)

/-- Data-row cells of raw CSV text, for stating parser properties. -/
def csvRows (content : String) : List (List String) :=
  rowCellsOf (jsLines content)

/-- `validateCoordinates`: the fixed inclusive bounding box
31–32°N, 34–35°E. -/
def validateCoordinates (lat lng : ℚ) : Bool :=
  31 ≤ lat && lat ≤ 32 && 34 ≤ lng && lng ≤ 35

/-- Numeric value of a record field (coordinate and numeric columns are
always `Cell.num` after a successful cast; the `0` default mirrors no
real run). -/
def qOf : Option Cell → ℚ
  | some (Cell.num q) => q
  | _ => 0

/-- Whether a record has every coordinate column
(`coordinateColumns.every(col => col in record)`). -/
def hasCoordCols (coords : List String) (r : Record) : Bool :=
  coords.all (fun c => (r.lookup c).isSome)

/-- Whether the validation pass warns about a record: both coordinate
columns are present but `validateCoordinates` rejects the pair. -/
def coordBad (coords : List String) (r : Record) : Bool :=
  hasCoordCols coords r &&
    ! validateCoordinates (qOf (r.lookup (coords.headD "")))
        (qOf (r.lookup ((coords.drop 1).headD "")))

/-- `parseCSVWithCoordinates`: csv-parse with the numeric cast, then a
validation pass that only emits warnings (modelled as the list of
records warned about) and returns every record unchanged. -/
def parseCSVWithCoordinates (content : String) (nums coords : List String) :
    Except String (List Record × List Record) :=
  match csvParse content nums coords with
  | Except.error e => Except.error e
  | Except.ok records => Except.ok (records, records.filter (coordBad coords))

/-- The default `coordinateColumns` argument. -/
def coordCols : List String := ["latitude", "longitude"]

/-! ## Dataset loaders (src/unnamed/part_000) -/

def casualtiesNumericColumns : List String :=
  ["killed", "injured", "children_killed", "women_killed", "latitude", "longitude"]

def infrastructureNumericColumns : List String :=
  ["hospitals_damaged", "schools_damaged", "homes_destroyed", "latitude", "longitude"]

def displacementNumericColumns : List String :=
  ["people_displaced", "displacement_centers", "capacity", "latitude", "longitude"]

/-- `loadCasualtiesData`: read `data/casualties.csv` (the file content is
passed in; `none` models a failed read) and parse it; any failure is
caught and replaced by the fixed error message. -/
def loadCasualtiesData (file : Option String) : Except String (List Record) :=
  match file with
  | none => Except.error "Failed to load casualties data"
  | some content =>
    match parseCSVWithCoordinates content casualtiesNumericColumns coordCols with
    | Except.ok (rs, _) => Except.ok rs
    | Except.error _ => Except.error "Failed to load casualties data"

/-- `loadInfrastructureData`, same shape. -/
def loadInfrastructureData (file : Option String) : Except String (List Record) :=
  match file with
  | none => Except.error "Failed to load infrastructure data"
  | some content =>
    match parseCSVWithCoordinates content infrastructureNumericColumns coordCols with
    | Except.ok (rs, _) => Except.ok rs
    | Except.error _ => Except.error "Failed to load infrastructure data"

/-- `loadDisplacementData`, same shape. -/
def loadDisplacementData (file : Option String) : Except String (List Record) :=
  match file with
  | none => Except.error "Failed to load displacement data"
  | some content =>
    match parseCSVWithCoordinates content displacementNumericColumns coordCols with
    | Except.ok (rs, _) => Except.ok rs
    | Except.error _ => Except.error "Failed to load displacement data"

/-! ## Aggregation helpers (src/unnamed/part_000) -/

/-- The common geographic shape (`GeographicData`). -/
structure GeographicData where
  latitude : ℚ
  longitude : ℚ
  location : String
  area : String
  deriving DecidableEq

/-- The de-duplication key built by `getUniqueLocations`:
the template string `location + "-" + area`. -/
def keyOf (r : GeographicData) : String :=
  r.location ++ "-" ++ r.area

/-- The `forEach` loop of `getUniqueLocations` over an insertion-ordered
map (`Map.has` / `Map.set`): the accumulator pairs each stored key with
the stored `GeographicData`. -/
def uniqueGo (acc : List (String × GeographicData)) :
    List GeographicData → List (String × GeographicData)
  | [] => acc
  | r :: rest =>
    if (acc.map Prod.fst).contains (keyOf r) then uniqueGo acc rest
    else uniqueGo (acc ++ [(keyOf r, r)]) rest

/-- `getUniqueLocations`: first occurrence per key wins,
`Array.from(map.values())` returns insertion order. -/
def getUniqueLocations (records : List GeographicData) : List GeographicData :=
  (uniqueGo [] records).map Prod.snd

/-- The bounds object returned by `calculateBounds` (always finite). -/
structure BoundsQ where
  north : ℚ
  south : ℚ
  east : ℚ
  west : ℚ
  deriving DecidableEq

/-- `calculateBounds`: the fixed default Gaza Strip box for an empty
record set, otherwise `Math.max`/`Math.min` over latitudes and
longitudes (on a non-empty list, folding from the first element). -/
def calculateBounds (records : List GeographicData) : BoundsQ :=
  match records with
  | [] => { north := 31.6, south := 31.2, east := 34.5, west := 34.2 }
  | r :: rest =>
    { north := ((r :: rest).map (fun g => g.latitude)).foldl max r.latitude
      south := ((r :: rest).map (fun g => g.latitude)).foldl min r.latitude
      east := ((r :: rest).map (fun g => g.longitude)).foldl max r.longitude
      west := ((r :: rest).map (fun g => g.longitude)).foldl min r.longitude }

/-! ## The displacement-events GET endpoint
(src/src/routes/api/events/+server.ts) -/

/-- JavaScript numbers including the infinities produced by an empty
`Math.max()` / `Math.min()`. -/
abbrev JNum := WithBot (WithTop ℚ)

/-- Embed a finite number. -/
def jq (q : ℚ) : JNum := ((q : WithTop ℚ) : WithBot (WithTop ℚ))

/-- `Math.max(...l)`: fold `max` starting from `-Infinity`. -/
def mathMax (l : List ℚ) : JNum :=
  (l.map jq).foldl max ⊥

/-- `Math.min(...l)`: fold `min` starting from `Infinity`. -/
def mathMin (l : List ℚ) : JNum :=
  (l.map jq).foldl min (((⊤ : WithTop ℚ) : WithBot (WithTop ℚ)))

/-- The endpoint's numeric columns. -/
def eventsNumericColumns : List String :=
  ["latitude", "longitude", "figure", "year"]

/-- The endpoint's cast callback: numeric columns are `parseFloat`ed
with `NaN` coerced to `0` (`isNaN(num) ? 0 : num`), every other cell is
returned unchanged (no trim). -/
def eventsCastCell (c v : String) : Cell :=
  if eventsNumericColumns.contains c then
    match jsParseFloat v with
    | none => Cell.num 0
    | some q => Cell.num q
  else Cell.str v

/-- The endpoint's cast callback never throws. -/
def eventsCastE (c v : String) : Except String Cell :=
  Except.ok (eventsCastCell c v)

/-- The header/metadata cleanup: `lines[0]` followed by `lines.slice(2)`
(line index 1 is dropped; joining on newlines and re-splitting is the
identity because the pieces come from a newline split). -/
def cleanedLines (content : String) : List String :=
  (jsLines content).headD "" :: (jsLines content).drop 2

/-- The endpoint's csv-parse call on the cleaned content. -/
def eventsParse (content : String) : Except String (List Record) :=
  parseWith eventsCastE (cleanedLines content)

/-- Header cells of the cleaned events content. -/
def eventsHeader (content : String) : List String :=
  headerCellsOf (cleanedLines content)

/-- Data-row cells of the cleaned events content. -/
def eventsRows (content : String) : List (List String) :=
  rowCellsOf (cleanedLines content)

/-- JavaScript truthiness of a looked-up record field: a missing field
(`undefined`) is falsy, a number is truthy iff non-zero (`NaN` cannot
occur after the cast), a string is truthy iff non-empty. -/
def jsTruthy : Option Cell → Bool
  | none => false
  | some (Cell.num q) => decide (q ≠ 0)
  | some (Cell.str s) => decide (s ≠ "")

/-- `record.figure > 0`: a missing field compares false; after the cast
the figure column is always numeric, so no string coercion can arise. -/
def jsGtZero : Option Cell → Bool
  | some (Cell.num q) => decide (0 < q)
  | _ => false

/-- The validity filter of the endpoint:
`record.latitude && record.longitude && record.figure > 0 &&
record.displacement_date && record.country === 'Palestine'`. -/
def isValidEvent (r : Record) : Bool :=
  jsTruthy (r.lookup "latitude") &&
  jsTruthy (r.lookup "longitude") &&
  jsGtZero (r.lookup "figure") &&
  jsTruthy (r.lookup "displacement_date") &&
  decide (r.lookup "country" = some (Cell.str "Palestine"))

/-- Whether `record.locations_name` is a string, so that the
`toLowerCase()` calls in the two partition filters do not throw. -/
def locNameOk (r : Record) : Bool :=
  match r.lookup "locations_name" with
  | some (Cell.str _) => true
  | _ => false

/-- `record.locations_name.toLowerCase().includes('gaza')`. -/
def gazaTest (r : Record) : Bool :=
  match r.lookup "locations_name" with
  | some (Cell.str s) => containsSub ("gaza".data) (lowerOf s)
  | _ => false

/-- `record.figure` as a number (numeric on every valid record). -/
def figureOf (r : Record) : ℚ := qOf (r.lookup "figure")

/-- `record.latitude` as a number. -/
def latOf (r : Record) : ℚ := qOf (r.lookup "latitude")

/-- `record.longitude` as a number. -/
def lngOf (r : Record) : ℚ := qOf (r.lookup "longitude")

/-- `reduce((sum, record) => sum + record.figure, 0)`. -/
def sumFigures (l : List Record) : ℚ :=
  l.foldl (fun s r => qAdd s (figureOf r)) 0

/-- Insertion loop of a JavaScript `Set`, skipping seen elements. -/
def jsSetDedupGo {α : Type} [DecidableEq α] (seen : List α) : List α → List α
  | [] => []
  | a :: rest =>
    if seen.contains a then jsSetDedupGo seen rest
    else a :: jsSetDedupGo (a :: seen) rest

/-- `[...new Set(l)]`: de-duplicate keeping first occurrences in order. -/
def jsSetDedup {α : Type} [DecidableEq α] (l : List α) : List α :=
  jsSetDedupGo [] l

/-- The `summary` object (without the unmodelled `date_range` and
`most_recent_event`, which depend on the JavaScript `Date` parser). -/
structure EventsSummary where
  total_events : Nat
  total_displaced : ℚ
  gaza_displaced : ℚ
  west_bank_displaced : ℚ
  gaza_events_count : Nat
  west_bank_events_count : Nat
  largest_displacement : JNum

/-- The `bounds` object of the endpoint (spread `Math.max`/`Math.min`,
so infinite on an empty valid-record set). -/
structure EventsBounds where
  north : JNum
  south : JNum
  east : JNum
  west : JNum

/-- The success payload of the endpoint (record order inside `data` is
not modelled; see the header comment). -/
structure EventsPayload where
  data : List Record
  gaza_events : List Record
  west_bank_events : List Record
  summary : EventsSummary
  bounds : EventsBounds
  sources : List (Option Cell)
  event_types : List (Option Cell)

/-- The endpoint's JSON response: HTTP 200 with the payload, or HTTP 500
with `success: false` and an error string. -/
inductive EventsResponse where
  | ok (p : EventsPayload)
  | fail (error : String)

/-- Build the success payload from the valid records. -/
def mkPayload (valid : List Record) : EventsPayload :=
  { data := valid
    gaza_events := valid.filter gazaTest
    west_bank_events := valid.filter (fun r => ! gazaTest r)
    summary :=
      { total_events := valid.length
        total_displaced := sumFigures valid
        gaza_displaced := sumFigures (valid.filter gazaTest)
        west_bank_displaced := sumFigures (valid.filter (fun r => ! gazaTest r))
        gaza_events_count := (valid.filter gazaTest).length
        west_bank_events_count := (valid.filter (fun r => ! gazaTest r)).length
        largest_displacement := mathMax (valid.map figureOf) }
    bounds :=
      { north := mathMax (valid.map latOf)
        south := mathMin (valid.map latOf)
        east := mathMax (valid.map lngOf)
        west := mathMin (valid.map lngOf) }
    sources := jsSetDedup (valid.map (fun r => r.lookup "sources"))
    event_types := jsSetDedup (valid.map (fun r => r.lookup "combined_type")) }

/-- The fixed error message of the endpoint's catch-all. -/
def eventsMsg : String := "Failed to load displacement events data"

/-- The GET handler: read the file (`none` = the read threw), clean and
parse it, filter to the valid records, and build the response; every
thrown error (missing file, parse error, or the `toLowerCase` TypeError
when `locations_name` is not a string) is caught and turned into the
fixed HTTP 500 response. -/
def eventsGET (file : Option String) : EventsResponse :=
  match file with
  | none => EventsResponse.fail eventsMsg
  | some content =>
    match eventsParse content with
    | Except.error _ => EventsResponse.fail eventsMsg
    | Except.ok records =>
      let valid := records.filter isValidEvent
      if valid.all locNameOk then EventsResponse.ok (mkPayload valid)
      else EventsResponse.fail eventsMsg

/-- The empty payload, used only to state closed witness facts about
responses through total projections. -/
def emptyPayload : EventsPayload :=
  { data := []
    gaza_events := []
    west_bank_events := []
    summary :=
      { total_events := 0
        total_displaced := 0
        gaza_displaced := 0
        west_bank_displaced := 0
        gaza_events_count := 0
        west_bank_events_count := 0
        largest_displacement := ⊥ }
    bounds := { north := ⊥, south := ⊥, east := ⊥, west := ⊥ }
    sources := []
    event_types := [] }

/-- Total projection to the payload of a response. -/
def payloadOf : EventsResponse → EventsPayload
  | EventsResponse.ok p => p
  | EventsResponse.fail _ => emptyPayload

/-- Total projection to the records of a parse result. -/
def recordsOf (x : Except String (List Record)) : List Record :=
  match x with
  | Except.ok rs => rs
  | Except.error _ => []

/-- Whether a response is the success case. -/
def isOkResp : EventsResponse → Bool
  | EventsResponse.ok _ => true
  | EventsResponse.fail _ => false

/-! ## Proof devices and concrete inputs -/

/-- Reference recursion for `getUniqueLocations`: keep each record whose
key has not been seen, remembering seen keys. -/
def firstByKey (seen : List String) : List GeographicData → List GeographicData
  | [] => []
  | r :: rest =>
    if seen.contains (keyOf r) then firstByKey seen rest
    else r :: firstByKey (keyOf r :: seen) rest

/-- A CSV text whose `killed` column holds a non-numeric value. -/
def wBadCSV : String := "name,killed,latitude,longitude\nA,xx,31,34"

/-- A well-formed CSV text with an untrimmed string cell. -/
def wGoodCSV : String := "name,killed,latitude,longitude\n A ,5,31,34"

/-- A well-formed CSV text whose second record has out-of-bounds
coordinates. -/
def wCoordCSV : String := "name,killed,latitude,longitude\nA,5,31,34\nB,7,10,34"

/-- Two records with different (location, area) pairs but the same
concatenated key "a-b-c". -/
def gA : GeographicData := { latitude := 1, longitude := 2, location := "a-b", area := "c" }

/-- See `gA`. -/
def gB : GeographicData := { latitude := 3, longitude := 4, location := "a", area := "b-c" }

/-- An events file (header, metadata line, one data row) whose only
record is invalid, so the valid-record set is empty. -/
def wEmptyEvents : String := "country\nskip\nFrance"

/-- An events file with a metadata line, two valid records (one Gaza,
one West Bank) and one invalid record (figure 0). -/
def wEventsCSV : String :=
  "country,latitude,longitude,figure,displacement_date,locations_name\nmeta\nPalestine,31,34,100,2023-10-01,Gaza City Shelter\nPalestine,32,35,50,2023-10-02,Ramallah Center\nPalestine,31,34,0,2023-10-03,Gaza"

/-- An events file: header line, metadata line, three data rows. -/
def wThreeRows : String := "a,b\nmeta\n1,2\n3,4\n5,6"

/-- An events file whose data row has fewer cells than the header, so
csv-parse raises a record-length error. -/
def wShortRow : String := "a,b\nmeta\nonlyone"

/-- An events file whose only record has an unparseable latitude. -/
def wBadLatEvents : String :=
  "country,latitude,longitude,figure,displacement_date,locations_name\nmeta\nPalestine,abc,34,100,2023-10-01,Gaza"

/-- A casualties-style CSV whose `killed` column fails to parse, so the
generic parser (and hence the loader) fails. -/
def wLoaderBad : String := "name,killed,latitude,longitude\nA,xx,31,34"

/-! ## Structural lemmas about the csv-parse model -/

lemma cellsWith_ok_zipWith (cast : String → String → Except String Cell)
    (F : String → String → Cell)
    (hF : ∀ c v f, cast c v = Except.ok f → f = F c v) :
    ∀ (cs vs : List String) (r : Record), cellsWith cast cs vs = Except.ok r →
      cs.length = vs.length ∧ r = List.zipWith (fun c v => (c, F c v)) cs vs := by
  intro cs
  induction cs with
  | nil =>
    intro vs r h
    cases vs with
    | nil => simp [cellsWith] at h; simp [← h]
    | cons v vs => simp [cellsWith] at h
  | cons c cs ih =>
    intro vs r h
    cases vs with
    | nil => simp [cellsWith] at h
    | cons v vs =>
      cases hc : cast c v with
      | error e => simp [cellsWith, hc] at h
      | ok f =>
        cases hr : cellsWith cast cs vs with
        | error e => simp [cellsWith, hc, hr] at h
        | ok rest =>
          simp [cellsWith, hc, hr] at h
          obtain ⟨h1, h2⟩ := ih vs rest hr
          subst h2
          simp [← h, h1, hF c v f hc]

lemma cellsWith_ok_cells (cast : String → String → Except String Cell)
    (P : String → String → Prop)
    (hP : ∀ c v f, cast c v = Except.ok f → P c v) :
    ∀ (cs vs : List String) (r : Record), cellsWith cast cs vs = Except.ok r →
      ∀ p ∈ cs.zip vs, P p.1 p.2 := by
  intro cs
  induction cs with
  | nil => intro vs r _ p hp; simp at hp
  | cons c cs ih =>
    intro vs r h p hp
    cases vs with
    | nil => simp at hp
    | cons v vs =>
      cases hc : cast c v with
      | error e => simp [cellsWith, hc] at h
      | ok f =>
        cases hr : cellsWith cast cs vs with
        | error e => simp [cellsWith, hc, hr] at h
        | ok rest =>
          rcases List.mem_cons.mp hp with h1 | h1
          · subst h1; exact hP c v f hc
          · exact ih vs rest hr p h1

lemma cellsWith_bad_cell (cast : String → String → Except String Cell)
    (cs vs : List String) (p : String × String) (hp : p ∈ cs.zip vs)
    (hbad : ∀ f, cast p.1 p.2 ≠ Except.ok f) :
    ∀ r, cellsWith cast cs vs ≠ Except.ok r := by
  induction cs generalizing vs with
  | nil => simp at hp
  | cons c cs ih =>
    cases vs with
    | nil => simp at hp
    | cons v vs =>
      intro r h
      cases hc : cast c v with
      | error e => simp [cellsWith, hc] at h
      | ok f =>
        cases hr : cellsWith cast cs vs with
        | error e => simp [cellsWith, hc, hr] at h
        | ok rest =>
          rcases List.mem_cons.mp hp with h1 | h1
          · exact hbad f (h1 ▸ hc)
          · exact ih vs h1 rest hr

lemma cellsWith_total (cast : String → String → Except String Cell)
    (hcast : ∀ c v, ∃ f, cast c v = Except.ok f) :
    ∀ (cs vs : List String), cs.length = vs.length →
      ∃ r, cellsWith cast cs vs = Except.ok r := by
  intro cs
  induction cs with
  | nil =>
    intro vs hlen
    cases vs with
    | nil => exact ⟨[], rfl⟩
    | cons v vs => simp at hlen
  | cons c cs ih =>
    intro vs hlen
    cases vs with
    | nil => simp at hlen
    | cons v vs =>
      obtain ⟨f, hf⟩ := hcast c v
      obtain ⟨r, hr⟩ := ih vs (by simpa using hlen)
      exact ⟨(c, f) :: r, by simp [cellsWith, hf, hr]⟩

lemma cellsWith_error_cell (cast : String → String → Except String Cell)
    (cs vs : List String) (e : String) (hlen : cs.length = vs.length)
    (h : cellsWith cast cs vs = Except.error e) :
    ∃ p ∈ cs.zip vs, cast p.1 p.2 = Except.error e := by
  induction cs generalizing vs with
  | nil =>
    cases vs with
    | nil => simp [cellsWith] at h
    | cons v vs => simp at hlen
  | cons c cs ih =>
    cases vs with
    | nil => simp at hlen
    | cons v vs =>
      cases hc : cast c v with
      | error e2 =>
        simp [cellsWith, hc] at h
        exact ⟨(c, v), by simp, by rw [hc, h]⟩
      | ok f =>
        cases hr : cellsWith cast cs vs with
        | error e2 =>
          simp [cellsWith, hc, hr] at h
          obtain ⟨p, hp, hcast⟩ := ih vs (by simpa using hlen) (by rw [hr, h])
          exact ⟨p, List.mem_cons_of_mem _ hp, hcast⟩
        | ok rest => simp [cellsWith, hc, hr] at h

lemma rowsWith_ok (cast : String → String → Except String Cell)
    (header : List String) :
    ∀ (rows : List (List String)) (rs : List Record),
      rowsWith cast header rows = Except.ok rs →
      rs.length = rows.length ∧
        ∀ p ∈ rs.zip rows, cellsWith cast header p.2 = Except.ok p.1 := by
  intro rows
  induction rows with
  | nil =>
    intro rs h
    simp [rowsWith] at h
    simp [← h]
  | cons row rest ih =>
    intro rs h
    cases hc : cellsWith cast header row with
    | error e => simp [rowsWith, hc] at h
    | ok r =>
      cases hr : rowsWith cast header rest with
      | error e => simp [rowsWith, hc, hr] at h
      | ok rs2 =>
        simp [rowsWith, hc, hr] at h
        obtain ⟨h1, h2⟩ := ih rs2 hr
        constructor
        · simp [← h, h1]
        · intro p hp
          rw [← h] at hp
          rcases List.mem_cons.mp hp with h3 | h3
          · subst h3; exact hc
          · exact h2 p h3

lemma rowsWith_bad_row (cast : String → String → Except String Cell)
    (header : List String) (rows : List (List String)) (row : List String)
    (hrow : row ∈ rows) (hbad : ∀ r, cellsWith cast header row ≠ Except.ok r) :
    ∀ rs, rowsWith cast header rows ≠ Except.ok rs := by
  induction rows with
  | nil => simp at hrow
  | cons row2 rest ih =>
    intro rs h
    cases hc : cellsWith cast header row2 with
    | error e => simp [rowsWith, hc] at h
    | ok r =>
      cases hr : rowsWith cast header rest with
      | error e => simp [rowsWith, hc, hr] at h
      | ok rs2 =>
        rcases List.mem_cons.mp hrow with h1 | h1
        · exact hbad r (h1 ▸ hc)
        · exact ih h1 rs2 hr

lemma rowsWith_total (cast : String → String → Except String Cell)
    (header : List String) (rows : List (List String))
    (h : ∀ row ∈ rows, ∃ r, cellsWith cast header row = Except.ok r) :
    ∃ rs, rowsWith cast header rows = Except.ok rs := by
  induction rows with
  | nil => exact ⟨[], rfl⟩
  | cons row rest ih =>
    obtain ⟨r, hr⟩ := h row (List.mem_cons_self _ _)
    obtain ⟨rs, hrs⟩ := ih (fun row2 h2 => h row2 (List.mem_cons_of_mem _ h2))
    exact ⟨r :: rs, by simp [rowsWith, hr, hrs]⟩

lemma rowsWith_error_row (cast : String → String → Except String Cell)
    (header : List String) (rows : List (List String)) (e : String)
    (h : rowsWith cast header rows = Except.error e) :
    ∃ row ∈ rows, cellsWith cast header row = Except.error e := by
  induction rows with
  | nil => simp [rowsWith] at h
  | cons row rest ih =>
    cases hc : cellsWith cast header row with
    | error e2 =>
      simp [rowsWith, hc] at h
      exact ⟨row, List.mem_cons_self _ _, by rw [hc, h]⟩
    | ok r =>
      cases hr : rowsWith cast header rest with
      | error e2 =>
        simp [rowsWith, hc, hr] at h
        obtain ⟨row2, h2, h3⟩ := ih (by rw [hr, h])
        exact ⟨row2, List.mem_cons_of_mem _ h2, h3⟩
      | ok rs => simp [rowsWith, hc, hr] at h

lemma lookup_zipWith (F : String → String → Cell) :
    ∀ (cs vs : List String) (c : String) (f : Cell),
      (List.zipWith (fun c v => (c, F c v)) cs vs).lookup c = some f →
      ∃ v, f = F c v := by
  intro cs
  induction cs with
  | nil => intro vs c f h; simp [List.lookup] at h
  | cons a as ih =>
    intro vs c f h
    cases vs with
    | nil => simp [List.lookup] at h
    | cons v vs =>
      rw [List.zipWith_cons_cons] at h
      cases hca : (c == a) with
      | true =>
        rw [List.lookup_cons] at h
        simp [hca] at h
        exact ⟨v, by rw [← h, show c = a from beq_iff_eq.mp hca]⟩
      | false =>
        rw [List.lookup_cons] at h
        simp [hca] at h
        exact ih vs c f h

/-! ## Fold lemmas for Math.max / Math.min -/

lemma foldl_max_init_le {α : Type} [LinearOrder α] :
    ∀ (l : List α) (a : α), a ≤ l.foldl max a := by
  intro l
  induction l with
  | nil => intro a; exact le_refl a
  | cons b t ih => intro a; exact le_trans (le_max_left a b) (ih (max a b))

lemma foldl_max_mem_le {α : Type} [LinearOrder α] :
    ∀ (l : List α) (a x : α), x ∈ l → x ≤ l.foldl max a := by
  intro l
  induction l with
  | nil => intro a x hx; simp at hx
  | cons b t ih =>
    intro a x hx
    rcases List.mem_cons.mp hx with h | h
    · subst h; exact le_trans (le_max_right a x) (foldl_max_init_le t (max a x))
    · exact ih (max a b) x h

lemma foldl_max_cases {α : Type} [LinearOrder α] :
    ∀ (l : List α) (a : α), l.foldl max a = a ∨ l.foldl max a ∈ l := by
  intro l
  induction l with
  | nil => intro a; left; rfl
  | cons b t ih =>
    intro a
    rcases ih (max a b) with h | h
    · rcases max_choice a b with h2 | h2
      · left; simpa [h2] using h
      · right; rw [List.foldl_cons, h, h2]; exact List.mem_cons_self b t
    · right; exact List.mem_cons_of_mem b h

lemma foldl_min_init_le {α : Type} [LinearOrder α] :
    ∀ (l : List α) (a : α), l.foldl min a ≤ a := by
  intro l
  induction l with
  | nil => intro a; exact le_refl a
  | cons b t ih => intro a; exact le_trans (ih (min a b)) (min_le_left a b)

lemma foldl_min_mem_le {α : Type} [LinearOrder α] :
    ∀ (l : List α) (a x : α), x ∈ l → l.foldl min a ≤ x := by
  intro l
  induction l with
  | nil => intro a x hx; simp at hx
  | cons b t ih =>
    intro a x hx
    rcases List.mem_cons.mp hx with h | h
    · subst h; exact le_trans (foldl_min_init_le t (min a x)) (min_le_right a x)
    · exact ih (min a b) x h

lemma foldl_min_cases {α : Type} [LinearOrder α] :
    ∀ (l : List α) (a : α), l.foldl min a = a ∨ l.foldl min a ∈ l := by
  intro l
  induction l with
  | nil => intro a; left; rfl
  | cons b t ih =>
    intro a
    rcases ih (min a b) with h | h
    · rcases min_choice a b with h2 | h2
      · left; simpa [h2] using h
      · right; rw [List.foldl_cons, h, h2]; exact List.mem_cons_self b t
    · right; exact List.mem_cons_of_mem b h

lemma jq_ne_bot (q : ℚ) : jq q ≠ (⊥ : JNum) := by
  rw [jq]
  exact WithBot.coe_ne_bot

lemma top_not_le_jq (q : ℚ) : ¬ (((⊤ : WithTop ℚ) : JNum) ≤ jq q) := by
  rw [jq, WithBot.coe_le_coe, top_le_iff]
  exact WithTop.coe_ne_top

/-! ## Partition and sum lemmas -/

lemma length_filter_partition {α : Type} (p : α → Bool) (l : List α) :
    (l.filter p).length + (l.filter (fun x => ! p x)).length = l.length := by
  induction l with
  | nil => rfl
  | cons a t ih =>
    by_cases h : p a <;> simp [List.filter_cons, h, ← ih] <;> omega

lemma sum_map_filter_partition {α : Type} (p : α → Bool) (f : α → ℚ) (l : List α) :
    ((l.filter p).map f).sum + ((l.filter (fun x => ! p x)).map f).sum
      = (l.map f).sum := by
  induction l with
  | nil => simp
  | cons a t ih =>
    by_cases h : p a <;> simp [List.filter_cons, h] <;> linarith [ih]

lemma qAdd_eq (a b : ℚ) : qAdd a b = a + b := (Rat.add_def' a b).symm

lemma qMul_eq (a b : ℚ) : qMul a b = a * b := by
  rw [qMul, Rat.mul_def a b, Rat.normalize_eq_mkRat]

lemma qDiv_eq (a b : ℚ) : qDiv a b = a / b := by
  rw [qDiv, qMul_eq, Rat.div_def, Rat.inv_def]

lemma qPow10Z_eq (e : ℤ) : qPow10Z e = (10 : ℚ) ^ e := by
  cases e with
  | ofNat n => rw [qPow10Z]; push_cast [Int.ofNat_eq_coe, zpow_natCast]; ring
  | negSucc n =>
    rw [qPow10Z, qDiv_eq, zpow_negSucc, one_div]
    push_cast
    ring

lemma foldl_add_figure (l : List Record) :
    ∀ s : ℚ, l.foldl (fun a r => qAdd a (figureOf r)) s = s + (l.map figureOf).sum := by
  induction l with
  | nil => intro s; simp
  | cons r t ih =>
    intro s
    rw [List.foldl_cons, ih (qAdd s (figureOf r)), qAdd_eq]
    simp
    ring

lemma sumFigures_eq (l : List Record) : sumFigures l = (l.map figureOf).sum := by
  simpa using foldl_add_figure l 0

/-! ## Lemmas about getUniqueLocations -/

lemma firstByKey_congr :
    ∀ (l : List GeographicData) (s1 s2 : List String),
      (∀ x, x ∈ s1 ↔ x ∈ s2) →
      firstByKey s1 l = firstByKey s2 l := by
  intro l
  induction l with
  | nil => intro s1 s2 _; rfl
  | cons r rest ih =>
    intro s1 s2 h
    by_cases h2 : keyOf r ∈ s2
    · have h1 : keyOf r ∈ s1 := (h _).mpr h2
      simp [firstByKey, h1, h2, ih s1 s2 h]
    · have h1 : keyOf r ∉ s1 := fun hx => h2 ((h _).mp hx)
      simp only [firstByKey]
      rw [if_neg (by simpa using h1), if_neg (by simpa using h2)]
      rw [ih (keyOf r :: s1) (keyOf r :: s2) (by intro x; simp [List.mem_cons, h x])]

lemma uniqueGo_eq_firstByKey :
    ∀ (l : List GeographicData) (acc : List (String × GeographicData)),
      uniqueGo acc l
        = acc ++ (firstByKey (acc.map Prod.fst) l).map (fun r => (keyOf r, r)) := by
  intro l
  induction l with
  | nil => intro acc; simp [uniqueGo, firstByKey]
  | cons r rest ih =>
    intro acc
    by_cases h : keyOf r ∈ acc.map Prod.fst
    · simp only [uniqueGo, firstByKey]
      rw [if_pos (by simpa using h), if_pos (by simpa using h), ih acc]
    · simp only [uniqueGo, firstByKey]
      rw [if_neg (by simpa using h), if_neg (by simpa using h)]
      rw [ih (acc ++ [(keyOf r, r)])]
      rw [firstByKey_congr rest ((acc ++ [(keyOf r, r)]).map Prod.fst)
            (keyOf r :: acc.map Prod.fst)
            (by intro x; simp [List.mem_append, List.mem_cons, or_comm])]
      simp

lemma getUniqueLocations_eq (records : List GeographicData) :
    getUniqueLocations records = firstByKey [] records := by
  rw [getUniqueLocations, uniqueGo_eq_firstByKey records []]
  simp [Function.comp_def]

lemma firstByKey_keys_fresh :
    ∀ (l : List GeographicData) (seen : List String) (u : GeographicData),
      u ∈ firstByKey seen l → keyOf u ∉ seen := by
  intro l
  induction l with
  | nil => intro seen u h; simp [firstByKey] at h
  | cons r rest ih =>
    intro seen u h
    by_cases h2 : keyOf r ∈ seen
    · rw [show firstByKey seen (r :: rest) = firstByKey seen rest from by
        simp only [firstByKey]; rw [if_pos (by simpa using h2)]] at h
      exact ih seen u h
    · rw [show firstByKey seen (r :: rest) = r :: firstByKey (keyOf r :: seen) rest from by
        simp only [firstByKey]; rw [if_neg (by simpa using h2)]] at h
      rcases List.mem_cons.mp h with h3 | h3
      · subst h3; exact h2
      · have h4 := ih (keyOf r :: seen) u h3
        exact fun hx => h4 (List.mem_cons_of_mem _ hx)

lemma firstByKey_keys_nodup :
    ∀ (l : List GeographicData) (seen : List String),
      ((firstByKey seen l).map keyOf).Nodup := by
  intro l
  induction l with
  | nil => intro seen; simp [firstByKey]
  | cons r rest ih =>
    intro seen
    by_cases h2 : keyOf r ∈ seen
    · rw [show firstByKey seen (r :: rest) = firstByKey seen rest from by
        simp only [firstByKey]; rw [if_pos (by simpa using h2)]]
      exact ih seen
    · rw [show firstByKey seen (r :: rest) = r :: firstByKey (keyOf r :: seen) rest from by
        simp only [firstByKey]; rw [if_neg (by simpa using h2)]]
      simp only [List.map_cons, List.nodup_cons]
      refine ⟨fun hmem => ?_, ih (keyOf r :: seen)⟩
      obtain ⟨u, hu, hku⟩ := List.mem_map.mp hmem
      exact (firstByKey_keys_fresh rest (keyOf r :: seen) u hu)
        (by rw [hku]; exact List.mem_cons_self _ _)

lemma firstByKey_covers :
    ∀ (l : List GeographicData) (seen : List String) (r : GeographicData),
      r ∈ l → keyOf r ∉ seen →
      ∃ u ∈ firstByKey seen l, keyOf u = keyOf r := by
  intro l
  induction l with
  | nil => intro seen r h; simp at h
  | cons r2 rest ih =>
    intro seen r h hfresh
    rcases List.mem_cons.mp h with h2 | h2
    · subst h2
      rw [show firstByKey seen (r :: rest) = r :: firstByKey (keyOf r :: seen) rest from by
        simp only [firstByKey]; rw [if_neg (by simpa using hfresh)]]
      exact ⟨r, List.mem_cons_self _ _, rfl⟩
    · by_cases h3 : keyOf r2 ∈ seen
      · rw [show firstByKey seen (r2 :: rest) = firstByKey seen rest from by
          simp only [firstByKey]; rw [if_pos (by simpa using h3)]]
        exact ih seen r h2 hfresh
      · rw [show firstByKey seen (r2 :: rest) = r2 :: firstByKey (keyOf r2 :: seen) rest from by
          simp only [firstByKey]; rw [if_neg (by simpa using h3)]]
        by_cases h4 : keyOf r = keyOf r2
        · exact ⟨r2, List.mem_cons_self _ _, h4.symm⟩
        · obtain ⟨u, hu, hku⟩ :=
            ih (keyOf r2 :: seen) r h2
              (by simp only [List.mem_cons]; exact fun hx => hx.elim h4 hfresh)
          exact ⟨u, List.mem_cons_of_mem _ hu, hku⟩

lemma firstByKey_first_wins :
    ∀ (l : List GeographicData) (seen : List String) (u : GeographicData),
      u ∈ firstByKey seen l →
      ∃ pre post, l = pre ++ u :: post ∧ ∀ p ∈ pre, keyOf p ≠ keyOf u := by
  intro l
  induction l with
  | nil => intro seen u h; simp [firstByKey] at h
  | cons r rest ih =>
    intro seen u h
    by_cases h2 : keyOf r ∈ seen
    · rw [show firstByKey seen (r :: rest) = firstByKey seen rest from by
        simp only [firstByKey]; rw [if_pos (by simpa using h2)]] at h
      obtain ⟨pre, post, hsplit, hpre⟩ := ih seen u h
      have hfresh : keyOf u ∉ seen := firstByKey_keys_fresh rest seen u h
      refine ⟨r :: pre, post, by simp [hsplit], ?_⟩
      intro p hp
      rcases List.mem_cons.mp hp with h3 | h3
      · subst h3; exact fun heq2 => hfresh (heq2 ▸ h2)
      · exact hpre p h3
    · rw [show firstByKey seen (r :: rest) = r :: firstByKey (keyOf r :: seen) rest from by
        simp only [firstByKey]; rw [if_neg (by simpa using h2)]] at h
      rcases List.mem_cons.mp h with h3 | h3
      · subst h3; exact ⟨[], rest, rfl, by simp⟩
      · obtain ⟨pre, post, hsplit, hpre⟩ := ih (keyOf r :: seen) u h3
        have hfresh : keyOf u ∉ keyOf r :: seen := firstByKey_keys_fresh rest _ u h3
        refine ⟨r :: pre, post, by simp [hsplit], ?_⟩
        intro p hp
        rcases List.mem_cons.mp hp with h4 | h4
        · subst h4
          exact fun heq2 => hfresh (by rw [← heq2]; exact List.mem_cons_self _ _)
        · exact hpre p h4

/-! ## Bridging lemmas for the two parsers and the endpoint -/

lemma castCell_ok (nums coords : List String) (c v : String) (f : Cell)
    (h : castCell nums coords c v = Except.ok f) : f = castOkVal nums coords c v := by
  unfold castCell castOkVal at *
  by_cases hm : memNum nums coords c
  · cases hpv : jsParseFloat v with
    | none => simp [hm, hpv] at h
    | some q => simp [hm, hpv] at h ⊢; exact h.symm
  · simp [hm] at h ⊢; exact h.symm

lemma castCell_ok_parses (nums coords : List String) (c v : String) (f : Cell)
    (h : castCell nums coords c v = Except.ok f) :
    memNum nums coords c = true → jsParseFloat v ≠ none := by
  intro hm hnone
  simp [castCell, hm, hnone] at h

lemma castCell_error (nums coords : List String) (c v e : String)
    (h : castCell nums coords c v = Except.error e) :
    e = numericErrMsg v c ∧ memNum nums coords c = true ∧ jsParseFloat v = none := by
  unfold castCell at h
  by_cases hm : memNum nums coords c
  · cases hpv : jsParseFloat v with
    | none => simp [hm, hpv] at h; exact ⟨h.symm, hm, rfl⟩
    | some q => simp [hm, hpv] at h
  · simp [hm] at h

lemma castCell_bad (nums coords : List String) (c v : String)
    (hm : memNum nums coords c = true) (hnone : jsParseFloat v = none) :
    ∀ f, castCell nums coords c v ≠ Except.ok f := by
  intro f h
  simp [castCell, hm, hnone] at h

lemma parseWith_ok (cast : String → String → Except String Cell)
    (lines : List String) (rs : List Record)
    (h : parseWith cast lines = Except.ok rs) :
    rs.length = (rowCellsOf lines).length ∧
      ∀ p ∈ rs.zip (rowCellsOf lines),
        cellsWith cast (headerCellsOf lines) p.2 = Except.ok p.1 := by
  cases hl : linesNE lines with
  | nil =>
    rw [parseWith, hl] at h
    simp only [rowCellsOf, headerCellsOf, hl]
    simp at h
    simp [← h]
  | cons hd rest =>
    rw [parseWith, hl] at h
    have := rowsWith_ok cast (splitComma hd) (rest.map splitComma) rs h
    simpa [rowCellsOf, headerCellsOf, hl] using this

lemma parseWith_bad_row (cast : String → String → Except String Cell)
    (lines : List String) (row : List String)
    (hrow : row ∈ rowCellsOf lines)
    (hbad : ∀ r, cellsWith cast (headerCellsOf lines) row ≠ Except.ok r) :
    ∀ rs, parseWith cast lines ≠ Except.ok rs := by
  intro rs h
  cases hl : linesNE lines with
  | nil => simp [rowCellsOf, hl] at hrow
  | cons hd rest =>
    rw [parseWith, hl] at h
    rw [rowCellsOf, hl] at hrow
    rw [headerCellsOf, hl] at hbad
    exact rowsWith_bad_row cast (splitComma hd) (rest.map splitComma) row hrow hbad rs h

lemma parseWith_error_cell (cast : String → String → Except String Cell)
    (lines : List String) (e : String)
    (hlen : ∀ row ∈ rowCellsOf lines, row.length = (headerCellsOf lines).length)
    (h : parseWith cast lines = Except.error e) :
    ∃ row ∈ rowCellsOf lines, ∃ p ∈ (headerCellsOf lines).zip row,
      cast p.1 p.2 = Except.error e := by
  cases hl : linesNE lines with
  | nil => rw [parseWith, hl] at h; simp at h
  | cons hd rest =>
    rw [parseWith, hl] at h
    obtain ⟨row, hrow, hcells⟩ :=
      rowsWith_error_row cast (splitComma hd) (rest.map splitComma) e h
    have hrow2 : row ∈ rowCellsOf lines := by rw [rowCellsOf, hl]; exact hrow
    have hlen2 : (splitComma hd).length = row.length := by
      have := hlen row hrow2
      simp only [headerCellsOf, hl] at this
      omega
    obtain ⟨p, hp, hcast⟩ :=
      cellsWith_error_cell cast (splitComma hd) row e hlen2 hcells
    refine ⟨row, hrow2, p, ?_, hcast⟩
    rw [headerCellsOf, hl]
    exact hp

lemma parseWith_total (cast : String → String → Except String Cell)
    (hcast : ∀ c v, ∃ f, cast c v = Except.ok f)
    (lines : List String)
    (hlen : ∀ row ∈ rowCellsOf lines, row.length = (headerCellsOf lines).length) :
    ∃ rs, parseWith cast lines = Except.ok rs := by
  cases hl : linesNE lines with
  | nil => rw [parseWith, hl]; exact ⟨[], rfl⟩
  | cons hd rest =>
    rw [parseWith, hl]
    refine rowsWith_total cast (splitComma hd) (rest.map splitComma) ?_
    intro row hrow
    refine cellsWith_total cast hcast (splitComma hd) row ?_
    have := hlen row (by rw [rowCellsOf, hl]; exact hrow)
    simp only [headerCellsOf, hl] at this
    omega

lemma mem_zip_left {α β : Type} :
    ∀ (l1 : List α) (l2 : List β), l1.length = l2.length →
      ∀ a ∈ l1, ∃ b, (a, b) ∈ l1.zip l2 := by
  intro l1
  induction l1 with
  | nil => intro l2 _ a ha; simp at ha
  | cons x t ih =>
    intro l2 hlen a ha
    cases l2 with
    | nil => simp at hlen
    | cons y t2 =>
      rcases List.mem_cons.mp ha with h | h
      · subst h; exact ⟨y, by simp⟩
      · obtain ⟨b, hb⟩ := ih t2 (by simpa using hlen) a h
        exact ⟨b, List.mem_cons_of_mem _ hb⟩

lemma eventsCastE_ok (c v : String) (f : Cell)
    (h : eventsCastE c v = Except.ok f) : f = eventsCastCell c v := by
  simpa [eventsCastE] using h.symm

lemma events_record_cell (content : String) (rs : List Record)
    (h : eventsParse content = Except.ok rs) :
    ∀ r ∈ rs, ∀ c f, r.lookup c = some f → ∃ v, f = eventsCastCell c v := by
  intro r hr c f hlook
  obtain ⟨hlen, hall⟩ := parseWith_ok eventsCastE (cleanedLines content) rs h
  obtain ⟨row, hrow⟩ :=
    mem_zip_left rs (rowCellsOf (cleanedLines content)) hlen r hr
  have hcells := hall (r, row) hrow
  obtain ⟨_, hzip⟩ :=
    cellsWith_ok_zipWith eventsCastE eventsCastCell
      (fun c v f h => eventsCastE_ok c v f h)
      (headerCellsOf (cleanedLines content)) row r hcells
  rw [hzip] at hlook
  exact lookup_zipWith eventsCastCell _ row c f hlook

lemma eventsGET_ok_inv (content : String) (p : EventsPayload)
    (h : eventsGET (some content) = EventsResponse.ok p) :
    ∃ rs, eventsParse content = Except.ok rs ∧
      (rs.filter isValidEvent).all locNameOk = true ∧
      p = mkPayload (rs.filter isValidEvent) := by
  simp only [eventsGET] at h
  cases hp : eventsParse content with
  | error e => rw [hp] at h; simp at h
  | ok rs =>
    rw [hp] at h
    by_cases hall : (rs.filter isValidEvent).all locNameOk
    · simp only [hall, if_true] at h
      refine ⟨rs, rfl, hall, ?_⟩
      injection h with h2
      exact h2.symm
    · simp [hall] at h

/-! ## Claim theorems -/

/-- C1: for every CSV text given to the generic parser, if any value in a
declared numeric column (or coordinate column) does not convert to a
valid number, parsing the whole file fails — no record sequence is
returned — and (whenever the rows are structurally well-formed, so that
the cast is what fails) the error names the offending column and bad
value. -/
theorem C1_numeric_fail_fast (content : String) (nums coords : List String)
    (hbad : ∃ row ∈ csvRows content, ∃ p ∈ (csvHeader content).zip row,
      memNum nums coords p.1 = true ∧ jsParseFloat p.2 = none) :
    (∃ e, parseCSVWithCoordinates content nums coords = Except.error e) ∧
    ((∀ row ∈ csvRows content, row.length = (csvHeader content).length) →
      ∃ c v, parseCSVWithCoordinates content nums coords
          = Except.error (numericErrMsg v c) ∧
        memNum nums coords c = true ∧ jsParseFloat v = none) := by
  obtain ⟨row, hrow, p, hp, hmem, hnone⟩ := hbad
  simp only [csvRows] at hrow
  simp only [csvHeader] at hp
  have hfail : ∀ rs, csvParse content nums coords ≠ Except.ok rs := by
    intro rs h
    simp only [csvParse] at h
    refine parseWith_bad_row (castCell nums coords) (jsLines content) row hrow
      (fun r hr => ?_) rs h
    exact cellsWith_bad_cell (castCell nums coords) (headerCellsOf (jsLines content))
      row p hp (castCell_bad nums coords p.1 p.2 hmem hnone) r hr
  obtain ⟨e, he⟩ : ∃ e, csvParse content nums coords = Except.error e := by
    cases h : csvParse content nums coords with
    | ok rs => exact absurd h (hfail rs)
    | error e => exact ⟨e, rfl⟩
  constructor
  · exact ⟨e, by simp only [parseCSVWithCoordinates, he]⟩
  · intro hlen
    simp only [csvRows, csvHeader] at hlen
    have he2 : parseWith (castCell nums coords) (jsLines content) = Except.error e := by
      simpa only [csvParse] using he
    obtain ⟨row2, _, p2, _, hcast⟩ :=
      parseWith_error_cell (castCell nums coords) (jsLines content) e hlen he2
    obtain ⟨hmsg, hmem2, hnone2⟩ := castCell_error nums coords p2.1 p2.2 e hcast
    refine ⟨p2.1, p2.2, ?_, hmem2, hnone2⟩
    rw [← hmsg]
    simp only [parseCSVWithCoordinates, he]

/-- C1 witness: a CSV whose `killed` column holds "xx" fails to parse,
with the error naming the column and value. -/
theorem C1_witness :
    (∃ e, parseCSVWithCoordinates wBadCSV ["killed"] coordCols = Except.error e) ∧
    ((∀ row ∈ csvRows wBadCSV, row.length = (csvHeader wBadCSV).length) →
      ∃ c v, parseCSVWithCoordinates wBadCSV ["killed"] coordCols
          = Except.error (numericErrMsg v c) ∧
        memNum ["killed"] coordCols c = true ∧ jsParseFloat v = none) :=
  C1_numeric_fail_fast wBadCSV ["killed"] coordCols (by decide)

/-- C2: on every CSV text on which the generic parser succeeds, each
record is exactly the header zipped with the row's cells, where a cell
in a numeric or coordinate column is the parsed float of the raw cell
(which must have parsed) and every other cell is the trimmed raw
string. -/
theorem C2_cast_values (content : String) (nums coords : List String)
    (rs ws : List Record)
    (h : parseCSVWithCoordinates content nums coords = Except.ok (rs, ws)) :
    rs.length = (csvRows content).length ∧
    ∀ p ∈ rs.zip (csvRows content),
      p.1 = List.zipWith (fun c v => (c, castOkVal nums coords c v))
              (csvHeader content) p.2 ∧
      ∀ q ∈ (csvHeader content).zip p.2,
        memNum nums coords q.1 = true → jsParseFloat q.2 ≠ none := by
  have hp : csvParse content nums coords = Except.ok rs := by
    simp only [parseCSVWithCoordinates] at h
    cases hc : csvParse content nums coords with
    | error e => rw [hc] at h; simp at h
    | ok rs2 => rw [hc] at h; simp at h; rw [h.1]
  simp only [csvParse] at hp
  obtain ⟨hlen, hall⟩ := parseWith_ok (castCell nums coords) (jsLines content) rs hp
  refine ⟨hlen, fun p hp2 => ?_⟩
  have hcells := hall p hp2
  obtain ⟨_, hzip⟩ :=
    cellsWith_ok_zipWith (castCell nums coords) (castOkVal nums coords)
      (castCell_ok nums coords) (headerCellsOf (jsLines content)) p.2 p.1 hcells
  refine ⟨hzip, fun q hq => ?_⟩
  exact cellsWith_ok_cells (castCell nums coords)
    (fun c v => memNum nums coords c = true → jsParseFloat v ≠ none)
    (castCell_ok_parses nums coords) (headerCellsOf (jsLines content)) p.2 p.1
    hcells q hq

/-- C2 witness: a concrete CSV parses with the numeric column as a
parsed float and the name column trimmed. -/
theorem C2_witness :
    (recordsOf ((parseCSVWithCoordinates wGoodCSV casualtiesNumericColumns
        coordCols).map Prod.fst)).length = (csvRows wGoodCSV).length ∧
    ∀ p ∈ (recordsOf ((parseCSVWithCoordinates wGoodCSV casualtiesNumericColumns
        coordCols).map Prod.fst)).zip (csvRows wGoodCSV),
      p.1 = List.zipWith (fun c v => (c, castOkVal casualtiesNumericColumns coordCols c v))
              (csvHeader wGoodCSV) p.2 ∧
      ∀ q ∈ (csvHeader wGoodCSV).zip p.2,
        memNum casualtiesNumericColumns coordCols q.1 = true → jsParseFloat q.2 ≠ none :=
  C2_cast_values wGoodCSV casualtiesNumericColumns coordCols _ _ (by rfl)

/-- C8: coordinate validation never affects the generic parser's result:
whenever the cast stage succeeds the whole parser succeeds with exactly
those records (out-of-bounds coordinates only populate the warning
list), and every success of the whole parser is exactly a success of
the cast stage with every record kept unchanged. -/
theorem C8_validation_never_blocks (content : String) (nums coords : List String) :
    (∀ rs, csvParse content nums coords = Except.ok rs →
      parseCSVWithCoordinates content nums coords
        = Except.ok (rs, rs.filter (coordBad coords))) ∧
    (∀ rs ws, parseCSVWithCoordinates content nums coords = Except.ok (rs, ws) →
      csvParse content nums coords = Except.ok rs ∧
        ws = rs.filter (coordBad coords)) := by
  constructor
  · intro rs h
    simp only [parseCSVWithCoordinates, h]
  · intro rs ws h
    simp only [parseCSVWithCoordinates] at h
    cases hc : csvParse content nums coords with
    | error e => rw [hc] at h; simp at h
    | ok rs2 =>
      rw [hc] at h
      simp at h
      exact ⟨by rw [h.1], by rw [← h.2, h.1]⟩

/-- C8 witness: a CSV with one in-bounds and one out-of-bounds record
parses to both records unchanged, the out-of-bounds one warned about. -/
theorem C8_witness :
    parseCSVWithCoordinates wCoordCSV casualtiesNumericColumns coordCols
      = Except.ok (recordsOf (csvParse wCoordCSV casualtiesNumericColumns coordCols),
          (recordsOf (csvParse wCoordCSV casualtiesNumericColumns coordCols)).filter
            (coordBad coordCols)) :=
  (C8_validation_never_blocks wCoordCSV casualtiesNumericColumns coordCols).1 _ (by rfl)

/-- C3 counterexample: on an events file whose valid-record set is
empty, the endpoint succeeds but its bounds are `-Infinity` (⊥), not
the fixed default region box with north 31.6. -/
theorem C3_counterexample :
    isOkResp (eventsGET (some wEmptyEvents)) = true ∧
    (payloadOf (eventsGET (some wEmptyEvents))).data = [] ∧
    (payloadOf (eventsGET (some wEmptyEvents))).bounds.north = ⊥ ∧
    (⊥ : JNum) ≠ jq 31.6 := by
  exact ⟨by rfl, by rfl, by rfl, by decide⟩

/-- C3 (amended): `calculateBounds` returns max/min latitudes and
longitudes of a non-empty record set and the fixed default region box
on the empty set, never an infinite value; the displacement-events GET
endpoint computes its bounds as the attained max/min over a non-empty
valid-record set, but on an empty valid-record set they are
`-Infinity` / `Infinity` (`Math.max()` / `Math.min()` of an empty
spread), not the default box. -/
theorem C3_amended_bounds :
    (calculateBounds [] = { north := 31.6, south := 31.2, east := 34.5, west := 34.2 }) ∧
    (∀ records : List GeographicData, records ≠ [] →
      (∀ g ∈ records,
        g.latitude ≤ (calculateBounds records).north ∧
        (calculateBounds records).south ≤ g.latitude ∧
        g.longitude ≤ (calculateBounds records).east ∧
        (calculateBounds records).west ≤ g.longitude) ∧
      (∃ g ∈ records, (calculateBounds records).north = g.latitude) ∧
      (∃ g ∈ records, (calculateBounds records).south = g.latitude) ∧
      (∃ g ∈ records, (calculateBounds records).east = g.longitude) ∧
      (∃ g ∈ records, (calculateBounds records).west = g.longitude)) ∧
    (∀ content p, eventsGET (some content) = EventsResponse.ok p →
      (∀ r ∈ p.data,
        jq (latOf r) ≤ p.bounds.north ∧ p.bounds.south ≤ jq (latOf r) ∧
        jq (lngOf r) ≤ p.bounds.east ∧ p.bounds.west ≤ jq (lngOf r)) ∧
      (p.data ≠ [] →
        (∃ r ∈ p.data, p.bounds.north = jq (latOf r)) ∧
        (∃ r ∈ p.data, p.bounds.south = jq (latOf r)) ∧
        (∃ r ∈ p.data, p.bounds.east = jq (lngOf r)) ∧
        (∃ r ∈ p.data, p.bounds.west = jq (lngOf r))) ∧
      (p.data = [] →
        p.bounds.north = ⊥ ∧ p.bounds.south = ((⊤ : WithTop ℚ) : JNum) ∧
        p.bounds.east = ⊥ ∧ p.bounds.west = ((⊤ : WithTop ℚ) : JNum))) := by
  refine ⟨rfl, ?_, ?_⟩
  · intro records hne
    cases records with
    | nil => exact absurd rfl hne
    | cons r rest =>
      constructor
      · intro g hg
        refine ⟨?_, ?_, ?_, ?_⟩
        · exact foldl_max_mem_le _ _ _ (List.mem_map_of_mem (fun g => g.latitude) hg)
        · exact foldl_min_mem_le _ _ _ (List.mem_map_of_mem (fun g => g.latitude) hg)
        · exact foldl_max_mem_le _ _ _ (List.mem_map_of_mem (fun g => g.longitude) hg)
        · exact foldl_min_mem_le _ _ _ (List.mem_map_of_mem (fun g => g.longitude) hg)
      · refine ⟨?_, ?_, ?_, ?_⟩
        · rcases foldl_max_cases ((r :: rest).map (fun g => g.latitude)) r.latitude with h | h
          · exact ⟨r, List.mem_cons_self _ _, h⟩
          · obtain ⟨g, hg, hval⟩ := List.mem_map.mp h
            exact ⟨g, hg, hval.symm⟩
        · rcases foldl_min_cases ((r :: rest).map (fun g => g.latitude)) r.latitude with h | h
          · exact ⟨r, List.mem_cons_self _ _, h⟩
          · obtain ⟨g, hg, hval⟩ := List.mem_map.mp h
            exact ⟨g, hg, hval.symm⟩
        · rcases foldl_max_cases ((r :: rest).map (fun g => g.longitude)) r.longitude with h | h
          · exact ⟨r, List.mem_cons_self _ _, h⟩
          · obtain ⟨g, hg, hval⟩ := List.mem_map.mp h
            exact ⟨g, hg, hval.symm⟩
        · rcases foldl_min_cases ((r :: rest).map (fun g => g.longitude)) r.longitude with h | h
          · exact ⟨r, List.mem_cons_self _ _, h⟩
          · obtain ⟨g, hg, hval⟩ := List.mem_map.mp h
            exact ⟨g, hg, hval.symm⟩
  · intro content p hresp
    obtain ⟨rs, _, _, hpay⟩ := eventsGET_ok_inv content p hresp
    subst hpay
    refine ⟨?_, ?_, ?_⟩
    · intro r hr
      refine ⟨?_, ?_, ?_, ?_⟩
      · exact foldl_max_mem_le _ _ _
          (List.mem_map_of_mem jq (List.mem_map_of_mem latOf hr))
      · exact foldl_min_mem_le _ _ _
          (List.mem_map_of_mem jq (List.mem_map_of_mem latOf hr))
      · exact foldl_max_mem_le _ _ _
          (List.mem_map_of_mem jq (List.mem_map_of_mem lngOf hr))
      · exact foldl_min_mem_le _ _ _
          (List.mem_map_of_mem jq (List.mem_map_of_mem lngOf hr))
    · intro hne2
      have hvne : List.filter isValidEvent rs ≠ [] := hne2
      obtain ⟨r0, hr0⟩ := List.exists_mem_of_ne_nil _ hvne
      refine ⟨?_, ?_, ?_, ?_⟩
      · rcases foldl_max_cases
            (((List.filter isValidEvent rs).map latOf).map jq) ⊥ with h | h
        · exfalso
          have hle := foldl_max_mem_le
            (((List.filter isValidEvent rs).map latOf).map jq) ⊥ (jq (latOf r0))
            (List.mem_map_of_mem jq (List.mem_map_of_mem latOf hr0))
          rw [h] at hle
          exact jq_ne_bot (latOf r0) (le_bot_iff.mp hle)
        · obtain ⟨x, hx, hxe⟩ := List.mem_map.mp h
          obtain ⟨r, hr, hre⟩ := List.mem_map.mp hx
          refine ⟨r, hr, ?_⟩
          show (((List.filter isValidEvent rs).map latOf).map jq).foldl max ⊥
            = jq (latOf r)
          rw [← hxe, hre]
      · rcases foldl_min_cases
            (((List.filter isValidEvent rs).map latOf).map jq)
            ((⊤ : WithTop ℚ) : JNum) with h | h
        · exfalso
          have hle := foldl_min_mem_le
            (((List.filter isValidEvent rs).map latOf).map jq)
            ((⊤ : WithTop ℚ) : JNum) (jq (latOf r0))
            (List.mem_map_of_mem jq (List.mem_map_of_mem latOf hr0))
          rw [h] at hle
          exact top_not_le_jq (latOf r0) hle
        · obtain ⟨x, hx, hxe⟩ := List.mem_map.mp h
          obtain ⟨r, hr, hre⟩ := List.mem_map.mp hx
          refine ⟨r, hr, ?_⟩
          show (((List.filter isValidEvent rs).map latOf).map jq).foldl min
              ((⊤ : WithTop ℚ) : JNum) = jq (latOf r)
          rw [← hxe, hre]
      · rcases foldl_max_cases
            (((List.filter isValidEvent rs).map lngOf).map jq) ⊥ with h | h
        · exfalso
          have hle := foldl_max_mem_le
            (((List.filter isValidEvent rs).map lngOf).map jq) ⊥ (jq (lngOf r0))
            (List.mem_map_of_mem jq (List.mem_map_of_mem lngOf hr0))
          rw [h] at hle
          exact jq_ne_bot (lngOf r0) (le_bot_iff.mp hle)
        · obtain ⟨x, hx, hxe⟩ := List.mem_map.mp h
          obtain ⟨r, hr, hre⟩ := List.mem_map.mp hx
          refine ⟨r, hr, ?_⟩
          show (((List.filter isValidEvent rs).map lngOf).map jq).foldl max ⊥
            = jq (lngOf r)
          rw [← hxe, hre]
      · rcases foldl_min_cases
            (((List.filter isValidEvent rs).map lngOf).map jq)
            ((⊤ : WithTop ℚ) : JNum) with h | h
        · exfalso
          have hle := foldl_min_mem_le
            (((List.filter isValidEvent rs).map lngOf).map jq)
            ((⊤ : WithTop ℚ) : JNum) (jq (lngOf r0))
            (List.mem_map_of_mem jq (List.mem_map_of_mem lngOf hr0))
          rw [h] at hle
          exact top_not_le_jq (lngOf r0) hle
        · obtain ⟨x, hx, hxe⟩ := List.mem_map.mp h
          obtain ⟨r, hr, hre⟩ := List.mem_map.mp hx
          refine ⟨r, hr, ?_⟩
          show (((List.filter isValidEvent rs).map lngOf).map jq).foldl min
              ((⊤ : WithTop ℚ) : JNum) = jq (lngOf r)
          rw [← hxe, hre]
    · intro hempty
      have : List.filter isValidEvent rs = [] := hempty
      simp only [mkPayload, this]
      exact ⟨rfl, rfl, rfl, rfl⟩

/-- C3 witness: the amended statement applied to a two-record set, to a
non-empty-valid-set events file (bounds attained), and to the
empty-valid-set events file (infinite bounds). -/
theorem C3_witness :
    ((∀ g ∈ [gA, gB],
        g.latitude ≤ (calculateBounds [gA, gB]).north ∧
        (calculateBounds [gA, gB]).south ≤ g.latitude ∧
        g.longitude ≤ (calculateBounds [gA, gB]).east ∧
        (calculateBounds [gA, gB]).west ≤ g.longitude) ∧
      (∃ g ∈ [gA, gB], (calculateBounds [gA, gB]).north = g.latitude) ∧
      (∃ g ∈ [gA, gB], (calculateBounds [gA, gB]).south = g.latitude) ∧
      (∃ g ∈ [gA, gB], (calculateBounds [gA, gB]).east = g.longitude) ∧
      (∃ g ∈ [gA, gB], (calculateBounds [gA, gB]).west = g.longitude)) ∧
    ((∃ r ∈ (payloadOf (eventsGET (some wEventsCSV))).data,
        (payloadOf (eventsGET (some wEventsCSV))).bounds.north = jq (latOf r)) ∧
      (∃ r ∈ (payloadOf (eventsGET (some wEventsCSV))).data,
        (payloadOf (eventsGET (some wEventsCSV))).bounds.south = jq (latOf r)) ∧
      (∃ r ∈ (payloadOf (eventsGET (some wEventsCSV))).data,
        (payloadOf (eventsGET (some wEventsCSV))).bounds.east = jq (lngOf r)) ∧
      (∃ r ∈ (payloadOf (eventsGET (some wEventsCSV))).data,
        (payloadOf (eventsGET (some wEventsCSV))).bounds.west = jq (lngOf r))) ∧
    ((payloadOf (eventsGET (some wEmptyEvents))).bounds.north = ⊥ ∧
      (payloadOf (eventsGET (some wEmptyEvents))).bounds.south
        = ((⊤ : WithTop ℚ) : JNum) ∧
      (payloadOf (eventsGET (some wEmptyEvents))).bounds.east = ⊥ ∧
      (payloadOf (eventsGET (some wEmptyEvents))).bounds.west
        = ((⊤ : WithTop ℚ) : JNum)) :=
  ⟨C3_amended_bounds.2.1 [gA, gB] (by decide),
   (C3_amended_bounds.2.2 wEventsCSV (payloadOf (eventsGET (some wEventsCSV)))
      (by rfl)).2.1 (by decide),
   (C3_amended_bounds.2.2 wEmptyEvents (payloadOf (eventsGET (some wEmptyEvents)))
      (by rfl)).2.2 (by rfl)⟩

/-- C4 counterexample: two records with different (location, area) pairs
— ("a-b", "c") and ("a", "b-c") — collide on the concatenated key
"a-b-c" and are merged into a single entry, so distinct pairs are not
always kept separate. -/
theorem C4_counterexample :
    (gA.location ≠ gB.location ∨ gA.area ≠ gB.area) ∧
    getUniqueLocations [gA, gB] = [gA] := by
  exact ⟨Or.inl (by decide), by decide⟩

/-- C4 (amended): `getUniqueLocations` returns exactly one entry per
distinct key string `location + "-" + area` occurring in the input
(distinct (location, area) pairs whose concatenations collide are
merged): output keys are pairwise distinct, every input record's key is
represented, and every output entry is the first input record bearing
its key. -/
theorem C4_amended_dedup_by_key (records : List GeographicData) :
    ((getUniqueLocations records).map keyOf).Nodup ∧
    (∀ r ∈ records, ∃ u ∈ getUniqueLocations records, keyOf u = keyOf r) ∧
    (∀ u ∈ getUniqueLocations records,
      ∃ pre post, records = pre ++ u :: post ∧ ∀ p ∈ pre, keyOf p ≠ keyOf u) := by
  rw [getUniqueLocations_eq]
  exact ⟨firstByKey_keys_nodup records [],
    fun r hr => firstByKey_covers records [] r hr (by simp),
    fun u hu => firstByKey_first_wins records [] u hu⟩

/-- C4 witness: the amended statement applied to the colliding pair. -/
theorem C4_witness :
    ∃ u ∈ getUniqueLocations [gA, gB], keyOf u = keyOf gB :=
  (C4_amended_dedup_by_key [gA, gB]).2.1 gB (by decide)

/-- C5: in the displacement-events GET endpoint a parsed record is
retained exactly when latitude and longitude are truthy, figure is a
strictly positive number, displacement_date is truthy, and country
equals "Palestine"; and total_displaced is the sum of figure over
exactly the retained records. -/
theorem C5_validity_filter (content : String) (rs : List Record) (p : EventsPayload)
    (hparse : eventsParse content = Except.ok rs)
    (hresp : eventsGET (some content) = EventsResponse.ok p) :
    (∀ r ∈ rs, (r ∈ p.data ↔
      (jsTruthy (r.lookup "latitude") = true ∧
       jsTruthy (r.lookup "longitude") = true ∧
       (∃ q, r.lookup "figure" = some (Cell.num q) ∧ 0 < q) ∧
       jsTruthy (r.lookup "displacement_date") = true ∧
       r.lookup "country" = some (Cell.str "Palestine")))) ∧
    p.summary.total_displaced = (p.data.map figureOf).sum := by
  obtain ⟨rs2, hp2, hall, hpay⟩ := eventsGET_ok_inv content p hresp
  rw [hparse] at hp2
  injection hp2 with h2
  subst h2
  subst hpay
  constructor
  · intro r hr
    show r ∈ rs.filter isValidEvent ↔ _
    rw [List.mem_filter]
    constructor
    · rintro ⟨-, hv⟩
      simp only [isValidEvent, Bool.and_eq_true, decide_eq_true_eq] at hv
      obtain ⟨⟨⟨⟨h1, h2⟩, h3⟩, h4⟩, h5⟩ := hv
      refine ⟨h1, h2, ?_, h4, h5⟩
      cases hf : r.lookup "figure" with
      | none => rw [hf] at h3; simp [jsGtZero] at h3
      | some f =>
        cases f with
        | str s => rw [hf] at h3; simp [jsGtZero] at h3
        | num q =>
          rw [hf] at h3
          exact ⟨q, rfl, by simpa [jsGtZero] using h3⟩
    · rintro ⟨h1, h2, ⟨q, hf, hq⟩, h4, h5⟩
      refine ⟨hr, ?_⟩
      simp [isValidEvent, Bool.and_eq_true, h1, h2, h4, h5, jsGtZero, hf, hq]
  · exact sumFigures_eq _

/-- C5 witness: the filter and sum statement on a concrete events file
with two valid and one invalid record. -/
theorem C5_witness :
    (∀ r ∈ recordsOf (eventsParse wEventsCSV),
      (r ∈ (payloadOf (eventsGET (some wEventsCSV))).data ↔
        (jsTruthy (r.lookup "latitude") = true ∧
         jsTruthy (r.lookup "longitude") = true ∧
         (∃ q, r.lookup "figure" = some (Cell.num q) ∧ 0 < q) ∧
         jsTruthy (r.lookup "displacement_date") = true ∧
         r.lookup "country" = some (Cell.str "Palestine")))) ∧
    (payloadOf (eventsGET (some wEventsCSV))).summary.total_displaced
      = ((payloadOf (eventsGET (some wEventsCSV))).data.map figureOf).sum :=
  C5_validity_filter wEventsCSV (recordsOf (eventsParse wEventsCSV))
    (payloadOf (eventsGET (some wEventsCSV))) (by rfl) (by rfl)

/-- C6: every valid record belongs to exactly one of gaza_events and
west_bank_events, decided by the case-insensitive substring test on
locations_name; counts and displaced sums of the two groups add up to
the totals. -/
theorem C6_gaza_partition (content : String) (p : EventsPayload)
    (hresp : eventsGET (some content) = EventsResponse.ok p) :
    (∀ r ∈ p.data,
      (r ∈ p.gaza_events ↔ gazaTest r = true) ∧
      (r ∈ p.west_bank_events ↔ gazaTest r = false) ∧
      ¬ (r ∈ p.gaza_events ∧ r ∈ p.west_bank_events)) ∧
    p.summary.gaza_events_count + p.summary.west_bank_events_count
      = p.summary.total_events ∧
    p.summary.gaza_displaced + p.summary.west_bank_displaced
      = p.summary.total_displaced := by
  obtain ⟨rs, _, _, hpay⟩ := eventsGET_ok_inv content p hresp
  subst hpay
  refine ⟨?_, ?_, ?_⟩
  · intro r hr
    have hg : r ∈ (rs.filter isValidEvent).filter gazaTest ↔ gazaTest r = true := by
      rw [List.mem_filter]
      exact ⟨fun h => h.2, fun h => ⟨hr, h⟩⟩
    have hw : r ∈ (rs.filter isValidEvent).filter (fun x => ! gazaTest x)
        ↔ gazaTest r = false := by
      rw [List.mem_filter]
      constructor
      · intro h
        simpa using h.2
      · intro h
        exact ⟨hr, by simp [h]⟩
    refine ⟨hg, hw, ?_⟩
    rintro ⟨h1, h2⟩
    replace h1 : r ∈ List.filter gazaTest (List.filter isValidEvent rs) := h1
    replace h2 : r ∈ List.filter (fun x => ! gazaTest x) (List.filter isValidEvent rs) := h2
    rw [hg] at h1
    rw [hw] at h2
    rw [h1] at h2
    exact Bool.noConfusion h2
  · exact length_filter_partition gazaTest (rs.filter isValidEvent)
  · show sumFigures _ + sumFigures _ = sumFigures _
    rw [sumFigures_eq, sumFigures_eq, sumFigures_eq]
    exact sum_map_filter_partition gazaTest figureOf (rs.filter isValidEvent)

/-- C6 witness: the partition statement on the concrete events file; the
"Gaza City Shelter" record lands in the Gaza group and "Ramallah
Center" in the other, one record each. -/
theorem C6_witness :
    ((payloadOf (eventsGET (some wEventsCSV))).summary.gaza_events_count
        + (payloadOf (eventsGET (some wEventsCSV))).summary.west_bank_events_count
        = (payloadOf (eventsGET (some wEventsCSV))).summary.total_events ∧
      (payloadOf (eventsGET (some wEventsCSV))).summary.gaza_displaced
        + (payloadOf (eventsGET (some wEventsCSV))).summary.west_bank_displaced
        = (payloadOf (eventsGET (some wEventsCSV))).summary.total_displaced) ∧
    (payloadOf (eventsGET (some wEventsCSV))).summary.gaza_events_count = 1 ∧
    (payloadOf (eventsGET (some wEventsCSV))).summary.west_bank_events_count = 1 ∧
    (∀ r ∈ (payloadOf (eventsGET (some wEventsCSV))).data,
      (r ∈ (payloadOf (eventsGET (some wEventsCSV))).gaza_events ↔ gazaTest r = true) ∧
      (r ∈ (payloadOf (eventsGET (some wEventsCSV))).west_bank_events
        ↔ gazaTest r = false) ∧
      ¬ (r ∈ (payloadOf (eventsGET (some wEventsCSV))).gaza_events ∧
          r ∈ (payloadOf (eventsGET (some wEventsCSV))).west_bank_events)) := by
  have h := C6_gaza_partition wEventsCSV (payloadOf (eventsGET (some wEventsCSV))) (by rfl)
  exact ⟨⟨h.2.1, h.2.2⟩, by decide, by decide, h.1⟩

/-- C7: the displacement-events loader removes exactly line index 1 from
the file content, keeping line 0 as header and lines from index 2 on as
data; with a header, a metadata line and well-formed data rows, parsing
succeeds with exactly one record per data row. -/
theorem C7_strips_metadata_line (content : String) (a b : String) (rest : List String)
    (h : jsLines content = a :: b :: rest) :
    cleanedLines content = a :: rest ∧
    eventsParse content = parseWith eventsCastE (a :: rest) ∧
    (a ≠ "" → (∀ d ∈ rest, d ≠ "") →
      (∀ d ∈ rest, (splitComma d).length = (splitComma a).length) →
      ∃ rs, eventsParse content = Except.ok rs ∧ rs.length = rest.length) := by
  have hclean : cleanedLines content = a :: rest := by
    rw [cleanedLines, h]
    rfl
  refine ⟨hclean, by rw [eventsParse, hclean], ?_⟩
  intro ha hne hlen
  have hne2 : linesNE (a :: rest) = a :: rest := by
    rw [linesNE, List.filter_eq_self]
    intro x hx
    rcases List.mem_cons.mp hx with h2 | h2
    · subst h2; simpa using ha
    · simpa using hne x h2
  have hrows : rowCellsOf (a :: rest) = rest.map splitComma := by
    rw [rowCellsOf, hne2]
    rfl
  have hhead : headerCellsOf (a :: rest) = splitComma a := by
    rw [headerCellsOf, hne2]
  obtain ⟨rs, hrs⟩ := parseWith_total eventsCastE (fun c v => ⟨_, rfl⟩) (a :: rest)
    (by
      rw [hrows, hhead]
      intro row hrow
      obtain ⟨d, hd, hdd⟩ := List.mem_map.mp hrow
      rw [← hdd]
      exact hlen d hd)
  refine ⟨rs, by rw [eventsParse, hclean]; exact hrs, ?_⟩
  have hlen2 := (parseWith_ok eventsCastE (a :: rest) rs hrs).1
  rw [hrows] at hlen2
  simpa using hlen2

/-- C7 witness: a file with a header line, a metadata line and three
data rows yields exactly three parsed records. -/
theorem C7_witness :
    ∃ rs, eventsParse wThreeRows = Except.ok rs ∧
      rs.length = (["1,2", "3,4", "5,6"] : List String).length :=
  (C7_strips_metadata_line wThreeRows "a,b" "meta" ["1,2", "3,4", "5,6"]
    (by decide)).2.2 (by decide) (by decide) (by decide)

/-- C9: every failure inside a loader — missing file or parser failure —
is caught and converted to the fixed generic message for that dataset,
and the displacement-events GET endpoint answers every failure with the
structured HTTP 500 response carrying its fixed error string. -/
theorem C9_uniform_load_failure :
    (∀ file e, loadCasualtiesData file = Except.error e →
      e = "Failed to load casualties data") ∧
    (∀ file e, loadInfrastructureData file = Except.error e →
      e = "Failed to load infrastructure data") ∧
    (∀ file e, loadDisplacementData file = Except.error e →
      e = "Failed to load displacement data") ∧
    (loadCasualtiesData none = Except.error "Failed to load casualties data") ∧
    (loadInfrastructureData none = Except.error "Failed to load infrastructure data") ∧
    (loadDisplacementData none = Except.error "Failed to load displacement data") ∧
    (∀ content e,
      parseCSVWithCoordinates content casualtiesNumericColumns coordCols
          = Except.error e →
      loadCasualtiesData (some content)
        = Except.error "Failed to load casualties data") ∧
    (∀ content e,
      parseCSVWithCoordinates content infrastructureNumericColumns coordCols
          = Except.error e →
      loadInfrastructureData (some content)
        = Except.error "Failed to load infrastructure data") ∧
    (∀ content e,
      parseCSVWithCoordinates content displacementNumericColumns coordCols
          = Except.error e →
      loadDisplacementData (some content)
        = Except.error "Failed to load displacement data") ∧
    (eventsGET none = EventsResponse.fail eventsMsg) ∧
    (∀ content e, eventsParse content = Except.error e →
      eventsGET (some content) = EventsResponse.fail eventsMsg) ∧
    (∀ file e, eventsGET file = EventsResponse.fail e → e = eventsMsg) := by
  refine ⟨?_, ?_, ?_, rfl, rfl, rfl, ?_, ?_, ?_, rfl, ?_, ?_⟩
  · intro file e h
    cases file with
    | none => simpa [loadCasualtiesData] using h.symm
    | some content =>
      simp only [loadCasualtiesData] at h
      cases hc : parseCSVWithCoordinates content casualtiesNumericColumns coordCols with
      | ok x => rw [hc] at h; simp at h
      | error e2 => rw [hc] at h; simpa using h.symm
  · intro file e h
    cases file with
    | none => simpa [loadInfrastructureData] using h.symm
    | some content =>
      simp only [loadInfrastructureData] at h
      cases hc : parseCSVWithCoordinates content infrastructureNumericColumns coordCols with
      | ok x => rw [hc] at h; simp at h
      | error e2 => rw [hc] at h; simpa using h.symm
  · intro file e h
    cases file with
    | none => simpa [loadDisplacementData] using h.symm
    | some content =>
      simp only [loadDisplacementData] at h
      cases hc : parseCSVWithCoordinates content displacementNumericColumns coordCols with
      | ok x => rw [hc] at h; simp at h
      | error e2 => rw [hc] at h; simpa using h.symm
  · intro content e h
    simp only [loadCasualtiesData, h]
  · intro content e h
    simp only [loadInfrastructureData, h]
  · intro content e h
    simp only [loadDisplacementData, h]
  · intro content e h
    simp only [eventsGET, h]
  · intro file e h
    cases file with
    | none => simpa [eventsGET] using h.symm
    | some content =>
      simp only [eventsGET] at h
      cases hc : eventsParse content with
      | error e2 => rw [hc] at h; simpa using h.symm
      | ok rs =>
        rw [hc] at h
        by_cases hall : (rs.filter isValidEvent).all locNameOk
        · simp [hall] at h
        · simp only [hall, if_false] at h
          simpa using h.symm

/-- C9 witness: a loader given a file whose numeric column fails to
parse, and the endpoint given a file with a malformed row, both answer
with their fixed generic error. -/
theorem C9_witness :
    loadCasualtiesData (some wLoaderBad)
      = Except.error "Failed to load casualties data" ∧
    eventsGET (some wShortRow) = EventsResponse.fail eventsMsg := by
  obtain ⟨-, -, -, -, -, -, hcas, -, -, -, hev, -⟩ := C9_uniform_load_failure
  exact ⟨hcas wLoaderBad (numericErrMsg "xx" "killed") (by rfl),
    hev wShortRow recLenMsg (by rfl)⟩

/-- C10: in the events endpoint a numeric-column value that does not
parse is coerced to 0 instead of failing; a record whose latitude,
longitude or figure field is 0 is excluded by the validity filter; and
the parse of a structurally well-formed file always succeeds, whatever
its numeric cells hold. -/
theorem C10_nan_coerced_to_zero :
    (∀ c v, c ∈ eventsNumericColumns → jsParseFloat v = none →
      eventsCastCell c v = Cell.num 0) ∧
    (∀ r : Record, r.lookup "latitude" = some (Cell.num 0) →
      isValidEvent r = false) ∧
    (∀ r : Record, r.lookup "longitude" = some (Cell.num 0) →
      isValidEvent r = false) ∧
    (∀ r : Record, r.lookup "figure" = some (Cell.num 0) →
      isValidEvent r = false) ∧
    (∀ content,
      (∀ row ∈ eventsRows content, row.length = (eventsHeader content).length) →
      ∃ rs, eventsParse content = Except.ok rs) := by
  refine ⟨?_, ?_, ?_, ?_, ?_⟩
  · intro c v hc hv
    simp [eventsCastCell, hc, hv]
  · intro r h
    simp [isValidEvent, h, jsTruthy]
  · intro r h
    simp [isValidEvent, h, jsTruthy]
  · intro r h
    simp [isValidEvent, h, jsGtZero]
  · intro content hlen
    simp only [eventsRows, eventsHeader] at hlen
    exact parseWith_total eventsCastE (fun c v => ⟨_, rfl⟩) (cleanedLines content) hlen

/-- C10 witness: an events file whose only record has latitude "abc"
still parses, the latitude is cast to 0, and the record is excluded by
the validity filter. -/
theorem C10_witness :
    eventsCastCell "latitude" "abc" = Cell.num 0 ∧
    (∃ rs, eventsParse wBadLatEvents = Except.ok rs) ∧
    (recordsOf (eventsParse wBadLatEvents)).filter isValidEvent = [] := by
  obtain ⟨h1, -, -, -, h5⟩ := C10_nan_coerced_to_zero
  exact ⟨h1 "latitude" "abc" (by decide) (by decide),
    h5 wBadLatEvents (by decide), by decide⟩
